import Mathlib

deriving instance DecidableEq for Except

/-
Verification of the xblive client's token-acquisition core: the credential
cache (`FileTokenCache` getters/setters and `Clear`), the device-code
polling loop (`pollForToken`), the refresh exchange (`refreshAccessToken`),
the token chain resolver (`ensureXSTSToken`), and the gamertag search
filter (`searchGamertags`).

Modelling conventions:
- Absolute instants (`time.Time`) are integers; Go's `a.After(b)` is `b < a`.
- HTTP exchanges are oracles carried in a `World` record: each remote call
  is a function from its request payload to `Except String` of the parsed
  response, and the network calls a run performs are recorded as a trace of
  `NetCall` values in the order they are issued.
- Durable cache writes (`save`) are modelled as pure record updates;
  storage-layer faults are outside the embedding.
- The device-code polling ticker fires at `interval, 2*interval, ...`
  seconds after polling begins (Go's `time.NewTicker` first fires one full
  interval after creation); `time.NewTicker` requires a positive interval,
  which appears as the hypothesis `0 < interval`.
-/

namespace Xblive

/-- Cached token record, mirroring `CachedTokens`: a token string per kind
(empty = absent), an absolute expiry instant for all kinds but refresh, and
the user hash stored beside the XSTS token. -/
structure CachedTokens where
  accessToken : String
  refreshToken : String
  accessTokenExpiry : Int
  userToken : String
  userTokenExpiry : Int
  xstsToken : String
  xstsTokenExpiry : Int
  userHash : String
  deriving Repr, DecidableEq

/-- Zero value of `CachedTokens`, as produced by `&CachedTokens{}`. -/
def CachedTokens.empty : CachedTokens :=
  { accessToken := "", refreshToken := "", accessTokenExpiry := 0,
    userToken := "", userTokenExpiry := 0,
    xstsToken := "", xstsTokenExpiry := 0, userHash := "" }

/-- `FileTokenCache.GetAccessToken`: the cached access token, or `none` when
the string is empty or `time.Now().After(expiry)`. -/
def GetAccessToken (now : Int) (c : CachedTokens) : Option String :=
  if c.accessToken = "" then none
  else if c.accessTokenExpiry < now then none
  else some c.accessToken

/-- `FileTokenCache.GetRefreshToken`: the cached refresh token whenever its
string is non-empty; refresh tokens carry no expiry. -/
def GetRefreshToken (c : CachedTokens) : Option String :=
  if c.refreshToken = "" then none
  else some c.refreshToken

/-- `FileTokenCache.GetUserToken`: the cached user token, or `none` when the
string is empty or `time.Now().After(expiry)`. -/
def GetUserToken (now : Int) (c : CachedTokens) : Option String :=
  if c.userToken = "" then none
  else if c.userTokenExpiry < now then none
  else some c.userToken

/-- `FileTokenCache.GetXSTSToken`: the cached XSTS token and user hash, or
`none` when the token string or the user hash is empty, or
`time.Now().After(expiry)`. -/
def GetXSTSToken (now : Int) (c : CachedTokens) : Option (String × String) :=
  if c.xstsToken = "" ∨ c.userHash = "" then none
  else if c.xstsTokenExpiry < now then none
  else some (c.xstsToken, c.userHash)

/-- `FileTokenCache.SetAccessToken` (the durable `save` is modelled as the
pure record update). -/
def SetAccessToken (c : CachedTokens) (token : String) (notAfter : Int) : CachedTokens :=
  { c with accessToken := token, accessTokenExpiry := notAfter }

/-- `FileTokenCache.SetRefreshToken`. -/
def SetRefreshToken (c : CachedTokens) (token : String) : CachedTokens :=
  { c with refreshToken := token }

/-- `FileTokenCache.SetUserToken`. -/
def SetUserToken (c : CachedTokens) (token : String) (notAfter : Int) : CachedTokens :=
  { c with userToken := token, userTokenExpiry := notAfter }

/-- `FileTokenCache.SetXSTSToken`. -/
def SetXSTSToken (c : CachedTokens) (token userHash : String) (notAfter : Int) : CachedTokens :=
  { c with xstsToken := token, userHash := userHash, xstsTokenExpiry := notAfter }

/-- In-memory view of a `FileTokenCache`: the loaded token record plus
whether the backing file currently exists on disk. -/
structure FileTokenCache where
  tokens : CachedTokens
  fileExists : Bool
  deriving Repr, DecidableEq

/-- Failure mode of `os.Remove` relevant to `Clear`: the file does not
exist (`os.IsNotExist`). -/
inductive RemoveErr where
  | notExist
  deriving Repr, DecidableEq

/-- `os.Remove` on the cache file: succeeds when the file exists, otherwise
fails with the not-exist error. -/
def removeFile (present : Bool) : Except RemoveErr Unit :=
  if present then .ok () else .error .notExist

/-- `FileTokenCache.Clear`: resets the in-memory record to the zero value
and removes the backing file, tolerating `os.IsNotExist`. -/
def Clear (c : FileTokenCache) : Except String FileTokenCache :=
  let c1 : FileTokenCache := { tokens := CachedTokens.empty, fileExists := c.fileExists }
  match removeFile c1.fileExists with
  | .ok _ => .ok { c1 with fileExists := false }
  | .error .notExist => .ok { c1 with fileExists := false }

/-- One entry of `DisplayClaims.xui`: the `"uhs"` field holds `some s` when
the key is present with a string value, `none` otherwise. -/
structure XuiClaim where
  uhs : Option String
  deriving Repr, DecidableEq

/-- `extractUserHash`: the `"uhs"` field of the first `xui` claim entry,
empty string when the list is empty or the field is absent. -/
def extractUserHash (xui : List XuiClaim) : String :=
  match xui with
  | [] => ""
  | claim :: _ =>
    match claim.uhs with
    | some s => s
    | none => ""

/-- OAuth `TokenResponse`: lifetime in seconds, access token, refresh token
(empty when the provider did not rotate one). -/
structure TokenResponse where
  expiresIn : Int
  accessToken : String
  refreshToken : String
  deriving Repr, DecidableEq

/-- `XboxUserTokenResponse`: absolute expiry and token. -/
structure XboxUserTokenResponse where
  notAfter : Int
  token : String
  deriving Repr, DecidableEq

/-- `XSTSTokenResponse`: absolute expiry, token, and display claims. -/
structure XSTSTokenResponse where
  notAfter : Int
  token : String
  displayClaims : List XuiClaim
  deriving Repr, DecidableEq

/-- One network call issued by the token chain resolver. -/
inductive NetCall where
  | refresh
  | userExchange
  | xstsExchange
  deriving Repr, DecidableEq

/-- The environment of a resolver run: the current time and the three
remote exchanges as oracles from request payload to parsed response. -/
structure World where
  now : Int
  refreshResult : String → Except String TokenResponse
  userTokenResult : String → Except String XboxUserTokenResponse
  xstsResult : String → Except String XSTSTokenResponse

/-- `Client.refreshAccessToken`: exchange the cached refresh token for a new
access token; persist the new access token with expiry `now + expiresIn`,
and persist the rotated refresh token only when it is non-empty. Returns
the outcome, the updated cache, and the trace of network calls. -/
def refreshAccessToken (w : World) (c : CachedTokens) :
    Except String Unit × CachedTokens × List NetCall :=
  match GetRefreshToken c with
  | none => (.error "no refresh token available", c, [])
  | some rt =>
    match w.refreshResult rt with
    | .error e => (.error e, c, [.refresh])
    | .ok tok =>
      let c1 := SetAccessToken c tok.accessToken (w.now + tok.expiresIn)
      let c2 := if tok.refreshToken = "" then c1 else SetRefreshToken c1 tok.refreshToken
      (.ok (), c2, [.refresh])

/-- The distinct error `ensureXSTSToken` returns when no interactive step is
available to complete the chain. -/
def notAuthenticatedMsg : String := "not authenticated, please call Authenticate() first"

/-- Lines 364-385 of the resolver: exchange an access token for a user
token, persist it, exchange that for an XSTS token, persist it with the
extracted user hash, and return token and hash. `tr` is the network trace
accumulated so far. -/
def ensureChain (w : World) (c : CachedTokens) (accessToken : String) (tr : List NetCall) :
    Except String (String × String) × CachedTokens × List NetCall :=
  match w.userTokenResult accessToken with
  | .error e => (.error ("failed to get user token: " ++ e), c, tr ++ [.userExchange])
  | .ok ur =>
    let c1 := SetUserToken c ur.token ur.notAfter
    match w.xstsResult ur.token with
    | .error e => (.error ("failed to get XSTS token: " ++ e), c1, tr ++ [.userExchange, .xstsExchange])
    | .ok xr =>
      let uh := extractUserHash xr.displayClaims
      let c2 := SetXSTSToken c1 xr.token uh xr.notAfter
      (.ok (xr.token, uh), c2, tr ++ [.userExchange, .xstsExchange])

/-- Lines 351-385 of the resolver: use the cached access token if valid,
otherwise attempt a refresh (failing with the not-authenticated error when
the refresh cannot produce one), then run the two-exchange chain. -/
def ensureFromAccess (w : World) (c : CachedTokens) :
    Except String (String × String) × CachedTokens × List NetCall :=
  match GetAccessToken w.now c with
  | some a => ensureChain w c a []
  | none =>
    match refreshAccessToken w c with
    | (.error _, c1, tr) => (.error notAuthenticatedMsg, c1, tr)
    | (.ok _, c1, tr) =>
      match GetAccessToken w.now c1 with
      | none => (.error "failed to obtain access token", c1, tr)
      | some a => ensureChain w c1 a tr

/-- `Client.ensureXSTSToken`: return a valid cached XSTS token unchanged;
else, if a valid user token is cached, exchange it for an XSTS token,
persist and return it, falling through on exchange failure; else resolve
from the access token (refreshing if needed) and run the full chain. -/
def ensureXSTSToken (w : World) (c : CachedTokens) :
    Except String (String × String) × CachedTokens × List NetCall :=
  match GetXSTSToken w.now c with
  | some th => (.ok th, c, [])
  | none =>
    match GetUserToken w.now c with
    | some ut =>
      match w.xstsResult ut with
      | .ok xr =>
        let uh := extractUserHash xr.displayClaims
        let c1 := SetXSTSToken c xr.token uh xr.notAfter
        (.ok (xr.token, uh), c1, [.xstsExchange])
      | .error _ =>
        let r := ensureFromAccess w c
        (r.1, r.2.1, .xstsExchange :: r.2.2)
    | none => ensureFromAccess w c

/-- Outcome of one `tryGetToken` attempt: a parsed token response, or the
formatted error string (for a non-200 with a parseable body this is
`error ++ ": " ++ errorDescription`). -/
inductive TickResult where
  | ok (tok : TokenResponse)
  | err (e : String)
  deriving Repr, DecidableEq

/-- Terminal outcome of the polling loop, tagged with the tick instant
(seconds since polling began) at which it occurred. -/
inductive PollOutcome where
  | success (tok : TokenResponse) (t : Nat)
  | expired (t : Nat)
  | failed (e : String) (t : Nat)
  deriving Repr, DecidableEq

/-- Whether `needle` occurs as a contiguous run inside `hay`
(Go's `strings.Contains`). -/
def charsContain (needle : List Char) : List Char → Bool
  | [] => needle.isEmpty
  | c :: rest => needle.isPrefixOf (c :: rest) || charsContain needle rest

/-- `strings.Contains(s, sub)`. -/
def strContains (s sub : String) : Bool := charsContain sub.toList s.toList

/-- The pending check of `pollForToken`:
`strings.Contains(err.Error(), "authorization_pending")`. -/
def isPendingErr (e : String) : Bool := strContains e "authorization_pending"

/-- The `pollForToken` loop body from tick time `t` onward: the next tick
fires at `t + interval`; at each tick the deadline is checked first
(`time.Now().After(deadline)`), then one `tryGetToken` attempt is made;
a pending error keeps polling, any other error stops with that error.
Returns the outcome and the instants at which attempts were issued. -/
def pollGo (interval deadline : Nat) (hpos : 0 < interval) (provider : Nat → TickResult)
    (t : Nat) : PollOutcome × List Nat :=
  let tick := t + interval
  if _h : deadline < tick then (.expired tick, [])
  else
    match provider tick with
    | .ok tok => (.success tok tick, [tick])
    | .err e =>
      if isPendingErr e then
        let r := pollGo interval deadline hpos provider tick
        (r.1, tick :: r.2)
      else (.failed e tick, [tick])
  termination_by deadline + 1 - t
  decreasing_by
    simp_wf
    omega

/-- `Client.pollForToken`: polling starts at instant 0 with deadline
`expiresIn` (the provider-declared validity window) and ticks every
`interval` seconds. -/
def pollForToken (interval expiresIn : Nat) (hpos : 0 < interval)
    (provider : Nat → TickResult) : PollOutcome × List Nat :=
  pollGo interval expiresIn hpos provider 0

/-- `DeviceCodeResponse`: user code, device code, verification URI, total
validity window and polling interval in seconds. -/
structure DeviceCodeResponse where
  userCode : String
  deviceCode : String
  verificationURI : String
  expiresIn : Nat
  interval : Nat
  deriving Repr, DecidableEq

/-- `Client.authenticateDeviceCode` after a device code has been obtained:
poll for a token; on success cache the access token with expiry
`time.Now() + expiresIn` (the clock reads the instant of the successful
response) and cache the response's refresh token unconditionally. -/
def authenticateDeviceCode (dc : DeviceCodeResponse) (hpos : 0 < dc.interval)
    (provider : Nat → TickResult) (c : CachedTokens) : Except String CachedTokens :=
  match (pollForToken dc.interval dc.expiresIn hpos provider).1 with
  | .success tok ts =>
    let notAfter : Int := (ts : Int) + tok.expiresIn
    let c1 := SetAccessToken c tok.accessToken notAfter
    let c2 := SetRefreshToken c1 tok.refreshToken
    .ok c2
  | .expired _ => .error "failed to obtain token: device code expired"
  | .failed e _ => .error ("failed to obtain token: " ++ e)

/-- Search profile: the fields of `Profile` the gamertag filter reads. -/
structure Profile where
  xuid : String
  gamertag : String
  deriving Repr, DecidableEq

/-- `strings.ReplaceAll(strings.ToLower(s), " ", "")` (ASCII case folding,
on which Go's `strings.ToLower` agrees). -/
def normalizeTag (s : String) : List Char :=
  (s.toList.map Char.toLower).filter (fun ch => ch ≠ ' ')

/-- Lines 188-203 of `searchGamertags` for one query: keep exactly the
returned profiles whose normalized gamertag equals the normalized query;
when there are none, keep all results and flag the query as fuzzy-only. -/
def searchStep (query : String) (people : List Profile) : List Profile × Bool :=
  let nq := normalizeTag query
  let matched := people.filter (fun p => normalizeTag p.gamertag == nq)
  if matched.isEmpty then (people, true) else (matched, false)

/-- `Client.searchGamertags` over a list of queries, with the directory
search endpoint as an oracle from query to returned profiles: accumulates
the kept profiles and the fuzzy-only queries in order. -/
def searchGamertags (results : String → List Profile) : List String → List Profile × List String
  | [] => ([], [])
  | g :: rest =>
    let s := searchStep g (results g)
    let r := searchGamertags results rest
    (s.1 ++ r.1, (if s.2 then [g] else []) ++ r.2)

/-- C3 counterexample: the claim requires validity only when the current
time is strictly before the expiry and requires every non-empty token with
a future expiry to be valid; the code returns the access token as valid at
the instant equal to its expiry (`time.Now().After` is strict), and an XSTS
token that is non-empty with a future expiry is still reported invalid when
the stored user hash is empty. -/
theorem getter_boundary_counterexample :
    (GetAccessToken 0 (⟨"a", "", 0, "", 0, "", 0, ""⟩ : CachedTokens)).isSome = true
    ∧ ¬ ((0 : Int) < 0)
    ∧ GetXSTSToken 0 (⟨"", "", 0, "", 0, "x", 5, ""⟩ : CachedTokens) = none
    ∧ ((0 : Int) < 5) := by
  decide

/-- C3 (amended): a cache getter returns the stored token as valid exactly
when the stored string is non-empty and the current time is at or before
the stored expiry (a token whose expiry equals the current instant is still
valid); for the XSTS token the stored user hash must additionally be
non-empty; the refresh token carries no expiry and is present exactly when
its string is non-empty. -/
theorem getters_validity_iff (now : Int) (c : CachedTokens) :
    ((GetAccessToken now c).isSome ↔ c.accessToken ≠ "" ∧ now ≤ c.accessTokenExpiry)
    ∧ ((GetUserToken now c).isSome ↔ c.userToken ≠ "" ∧ now ≤ c.userTokenExpiry)
    ∧ ((GetXSTSToken now c).isSome ↔
        c.xstsToken ≠ "" ∧ c.userHash ≠ "" ∧ now ≤ c.xstsTokenExpiry)
    ∧ ((GetRefreshToken c).isSome ↔ c.refreshToken ≠ "") := by
  refine ⟨?_, ?_, ?_, ?_⟩
  · unfold GetAccessToken
    split
    · simp_all
    · split <;> simp_all
  · unfold GetUserToken
    split
    · simp_all
    · split <;> simp_all
  · unfold GetXSTSToken
    split
    · simp_all [or_iff_not_imp_left]
    · split <;> simp_all
  · unfold GetRefreshToken
    split <;> simp_all

/-- C9: the XSTS getter also requires a non-empty stored user hash, so a
persisted XSTS token whose acquisition yielded no extractable user hash
(`extractUserHash` returned the empty string) is never served from the
cache as valid. -/
theorem getXSTSToken_requires_userHash (now : Int) (c : CachedTokens) :
    (c.userHash = "" → GetXSTSToken now c = none)
    ∧ (∀ tok notAfter claims, extractUserHash claims = "" →
        GetXSTSToken now (SetXSTSToken c tok (extractUserHash claims) notAfter) = none) := by
  constructor
  · intro h
    simp [GetXSTSToken, h]
  · intro tok notAfter claims h
    simp [GetXSTSToken, SetXSTSToken, h]

/-- C9 witness: concrete cache states with an empty user hash and a claims
structure with no extractable hash. -/
theorem getXSTSToken_requires_userHash_witness :
    GetXSTSToken 0 (⟨"", "", 0, "", 0, "tok", 50, ""⟩ : CachedTokens) = none
    ∧ GetXSTSToken 0 (SetXSTSToken (⟨"", "", 0, "", 0, "", 0, ""⟩ : CachedTokens)
        "tok" (extractUserHash []) 50) = none := by
  exact ⟨(getXSTSToken_requires_userHash 0 _).1 rfl,
    (getXSTSToken_requires_userHash 0 _).2 "tok" 50 [] rfl⟩

/-- C7: `Clear` always succeeds, produces the state with the zero token
record and no backing file, after which every getter reports every token
kind absent at every instant, and `Clear` on the already-cleared state
(no persisted state at all) succeeds again as a no-op with the same
result. -/
theorem clear_getters_absent_idempotent (c : FileTokenCache) (now : Int) :
    Clear c = .ok { tokens := CachedTokens.empty, fileExists := false }
    ∧ (∀ d : FileTokenCache, Clear c = .ok d →
        GetAccessToken now d.tokens = none
        ∧ GetRefreshToken d.tokens = none
        ∧ GetUserToken now d.tokens = none
        ∧ GetXSTSToken now d.tokens = none
        ∧ Clear d = .ok d) := by
  have hclear : Clear c = .ok { tokens := CachedTokens.empty, fileExists := false } := by
    obtain ⟨tk, fe⟩ := c
    cases fe <;> rfl
  refine ⟨hclear, ?_⟩
  intro d hd
  rw [hclear] at hd
  obtain rfl : ({ tokens := CachedTokens.empty, fileExists := false } : FileTokenCache) = d :=
    by injection hd
  exact ⟨rfl, rfl, rfl, rfl, rfl⟩

/-- C7 witness: `Clear` on a concrete warm cache state, and again on the
result. -/
theorem clear_getters_absent_idempotent_witness :
    Clear ⟨⟨"a", "r", 9, "u", 9, "x", 9, "h"⟩, true⟩ = .ok ⟨CachedTokens.empty, false⟩
    ∧ GetAccessToken 3 CachedTokens.empty = none
    ∧ Clear ⟨CachedTokens.empty, false⟩ = .ok ⟨CachedTokens.empty, false⟩ := by
  refine ⟨(clear_getters_absent_idempotent ⟨⟨"a", "r", 9, "u", 9, "x", 9, "h"⟩, true⟩ 3).1, ?_, ?_⟩
  · exact ((clear_getters_absent_idempotent ⟨CachedTokens.empty, true⟩ 3).2
      _ (clear_getters_absent_idempotent ⟨CachedTokens.empty, true⟩ 3).1).1
  · exact ((clear_getters_absent_idempotent ⟨CachedTokens.empty, true⟩ 3).2
      _ (clear_getters_absent_idempotent ⟨CachedTokens.empty, true⟩ 3).1).2.2.2.2

/-- C10: a successful refresh exchange overwrites the cached access token
and its expiry (now + declared lifetime), leaves the cached refresh token
unchanged when the response carries an empty refresh-token string and
replaces it when the response carries a rotated one, and touches no other
field. -/
theorem refreshAccessToken_rotation_frame (w : World) (c : CachedTokens)
    (rt : String) (tok : TokenResponse)
    (hrt : GetRefreshToken c = some rt) (hok : w.refreshResult rt = .ok tok) :
    (refreshAccessToken w c).1 = .ok ()
    ∧ (refreshAccessToken w c).2.2 = [.refresh]
    ∧ (refreshAccessToken w c).2.1.accessToken = tok.accessToken
    ∧ (refreshAccessToken w c).2.1.accessTokenExpiry = w.now + tok.expiresIn
    ∧ (tok.refreshToken = "" → (refreshAccessToken w c).2.1.refreshToken = c.refreshToken)
    ∧ (tok.refreshToken ≠ "" → (refreshAccessToken w c).2.1.refreshToken = tok.refreshToken)
    ∧ (refreshAccessToken w c).2.1.userToken = c.userToken
    ∧ (refreshAccessToken w c).2.1.userTokenExpiry = c.userTokenExpiry
    ∧ (refreshAccessToken w c).2.1.xstsToken = c.xstsToken
    ∧ (refreshAccessToken w c).2.1.xstsTokenExpiry = c.xstsTokenExpiry
    ∧ (refreshAccessToken w c).2.1.userHash = c.userHash := by
  by_cases hrot : tok.refreshToken = "" <;>
    simp [refreshAccessToken, hrt, hok, hrot, SetAccessToken, SetRefreshToken]

/-- C8: for a single gamertag query, the kept result set consists of exactly
the returned profiles whose gamertag equals the query after lowercasing and
removing spaces whenever at least one such profile exists, and the query is
then not reported fuzzy; only when no returned profile normalizes equal to
the query are all search results kept and the query reported in the
fuzzy-only list. -/
theorem searchStep_normalized_match (query : String) (people : List Profile) :
    ((∃ p ∈ people, normalizeTag p.gamertag = normalizeTag query) →
      (searchStep query people).2 = false
      ∧ (searchStep query people).1 =
          people.filter (fun p => normalizeTag p.gamertag == normalizeTag query)
      ∧ ∀ p ∈ (searchStep query people).1,
          p ∈ people ∧ normalizeTag p.gamertag = normalizeTag query)
    ∧ ((∀ p ∈ people, normalizeTag p.gamertag ≠ normalizeTag query) →
        searchStep query people = (people, true))
    ∧ (∀ results : String → List Profile, results query = people →
        (query ∈ (searchGamertags results [query]).2 ↔
          ∀ p ∈ people, normalizeTag p.gamertag ≠ normalizeTag query)) := by
  have hfilter : ∀ p, p ∈ people.filter (fun q => normalizeTag q.gamertag == normalizeTag query) ↔
      p ∈ people ∧ normalizeTag p.gamertag = normalizeTag query := by
    intro p
    simp [List.mem_filter]
  have hempty : (people.filter (fun q => normalizeTag q.gamertag == normalizeTag query)).isEmpty = true ↔
      ∀ p ∈ people, normalizeTag p.gamertag ≠ normalizeTag query := by
    rw [List.isEmpty_iff]
    constructor
    · intro hnil p hp hne
      have hm : p ∈ people.filter (fun q => normalizeTag q.gamertag == normalizeTag query) :=
        (hfilter p).mpr ⟨hp, hne⟩
      simp [hnil] at hm
    · intro hall
      rcases h : people.filter (fun q => normalizeTag q.gamertag == normalizeTag query) with _ | ⟨p, l⟩
      · exact h
      · have hmem : p ∈ people.filter (fun q => normalizeTag q.gamertag == normalizeTag query) := by
          rw [h]
          exact List.mem_cons_self p l
        obtain ⟨hp, hn⟩ := (hfilter p).mp hmem
        exact absurd hn (hall p hp)
  have hs2 : (searchStep query people).2 =
      (people.filter (fun q => normalizeTag q.gamertag == normalizeTag query)).isEmpty := by
    simp only [searchStep]
    split <;> simp_all
  refine ⟨?_, ?_, ?_⟩
  · intro ⟨p, hp, hn⟩
    have hne : (people.filter (fun q => normalizeTag q.gamertag == normalizeTag query)).isEmpty = false := by
      cases h : (people.filter (fun q => normalizeTag q.gamertag == normalizeTag query)).isEmpty
      · rfl
      · exact absurd hn (hempty.mp h p hp)
    refine ⟨?_, ?_, ?_⟩
    · simp [searchStep, hne]
    · simp [searchStep, hne]
    · intro q hq
      rw [show (searchStep query people).1 =
          people.filter (fun r => normalizeTag r.gamertag == normalizeTag query) by
        simp [searchStep, hne]] at hq
      exact (hfilter q).mp hq
  · intro hall
    have he : (people.filter (fun q => normalizeTag q.gamertag == normalizeTag query)).isEmpty = true :=
      hempty.mpr hall
    simp [searchStep, he]
  · intro results hres
    have hsg : (searchGamertags results [query]).2 =
        if (searchStep query people).2 then [query] else [] := by
      simp [searchGamertags, hres]
    rw [hsg, hs2]
    cases hie : (people.filter (fun q => normalizeTag q.gamertag == normalizeTag query)).isEmpty
    · simp only [Bool.false_eq_true, if_false, List.not_mem_nil, false_iff]
      intro hall
      have hcontra := hempty.mpr hall
      rw [hie] at hcontra
      exact Bool.noConfusion hcontra
    · simp only [if_true, List.mem_singleton, true_iff]
      exact hempty.mp hie

/-- C8 witness: the spec example, query "Player One" whose only normalized
match is "PlayerOne": treated as matched, not fuzzy. -/
theorem searchStep_normalized_match_witness :
    (searchStep "Player One" [(⟨"1", "PlayerOne"⟩ : Profile), ⟨"2", "PlayerTwo"⟩]).2 = false := by
  exact ((searchStep_normalized_match "Player One"
    [(⟨"1", "PlayerOne"⟩ : Profile), ⟨"2", "PlayerTwo"⟩]).1
    ⟨⟨"1", "PlayerOne"⟩, by decide, by decide⟩).1

/-- C10 witness: a concrete refresh exchange whose response carries no
rotated refresh token leaves the stored refresh token in place. -/
theorem refreshAccessToken_rotation_frame_witness :
    (refreshAccessToken
      ⟨100, fun _ => .ok ⟨3600, "AT2", ""⟩, fun _ => .error "unused", fun _ => .error "unused"⟩
      (⟨"old", "RT", 0, "", 0, "", 0, ""⟩ : CachedTokens)).2.1.refreshToken = "RT" := by
  exact ((refreshAccessToken_rotation_frame
    ⟨100, fun _ => .ok ⟨3600, "AT2", ""⟩, fun _ => .error "unused", fun _ => .error "unused"⟩
    (⟨"old", "RT", 0, "", 0, "", 0, ""⟩ : CachedTokens) "RT" ⟨3600, "AT2", ""⟩
    rfl rfl).2.2.2.2.1) rfl

/-- Helper: the wrapped user-token-exchange error is never the
not-authenticated error (they differ in their first character). -/
theorem wrapUserErr_ne_notAuth (e : String) :
    ("failed to get user token: " ++ e) ≠ notAuthenticatedMsg := by
  obtain ⟨d⟩ := e
  intro h
  have h1 : ("failed to get user token: " ++ String.mk d).data.head? = some 'f' := rfl
  have h2 : notAuthenticatedMsg.data.head? = some 'n' := rfl
  exact absurd (h1.symm.trans ((congrArg (fun s => s.data.head?) h).trans h2)) (by decide)

/-- Helper: the wrapped XSTS-exchange error is never the not-authenticated
error. -/
theorem wrapXSTSErr_ne_notAuth (e : String) :
    ("failed to get XSTS token: " ++ e) ≠ notAuthenticatedMsg := by
  obtain ⟨d⟩ := e
  intro h
  have h1 : ("failed to get XSTS token: " ++ String.mk d).data.head? = some 'f' := rfl
  have h2 : notAuthenticatedMsg.data.head? = some 'n' := rfl
  exact absurd (h1.symm.trans ((congrArg (fun s => s.data.head?) h).trans h2)) (by decide)

/-- Helper: the output of the flow is never confused with the
not-authenticated error when the access token could not be re-read. -/
theorem failedObtain_ne_notAuth : "failed to obtain access token" ≠ notAuthenticatedMsg := by
  decide

/-- Helper: the access/user/XSTS exchange chain never produces the
not-authenticated error. -/
theorem ensureChain_fst_ne_notAuth (w : World) (c : CachedTokens) (a : String)
    (tr : List NetCall) : (ensureChain w c a tr).1 ≠ .error notAuthenticatedMsg := by
  unfold ensureChain
  cases hu : w.userTokenResult a with
  | error e => simp [hu, wrapUserErr_ne_notAuth e]
  | ok ur =>
    cases hx : w.xstsResult ur.token with
    | error e => simp [hu, hx, wrapXSTSErr_ne_notAuth e]
    | ok xr => simp [hu, hx]

/-- Helper: a refresh attempt that returns an error comes exactly from a
missing refresh token or a failed refresh exchange. -/
theorem refreshAccessToken_error_cond (w : World) (c : CachedTokens) (msg : String)
    (c1 : CachedTokens) (tr : List NetCall)
    (h : refreshAccessToken w c = (.error msg, c1, tr)) :
    GetRefreshToken c = none ∨
      ∃ rt e, GetRefreshToken c = some rt ∧ w.refreshResult rt = .error e := by
  unfold refreshAccessToken at h
  split at h
  next heq => exact Or.inl heq
  next rt heq =>
    split at h
    next e heq2 => exact Or.inr ⟨rt, e, heq, heq2⟩
    next tok heq2 => exact absurd (congrArg (fun p => p.1) h) (by simp)

/-- Helper: a successful refresh attempt rules out both failure causes. -/
theorem refreshAccessToken_ok_cond (w : World) (c : CachedTokens) (x : Unit)
    (c1 : CachedTokens) (tr : List NetCall)
    (h : refreshAccessToken w c = (.ok x, c1, tr)) :
    ¬ (GetRefreshToken c = none ∨
        ∃ rt e, GetRefreshToken c = some rt ∧ w.refreshResult rt = .error e) := by
  unfold refreshAccessToken at h
  split at h
  next heq => exact absurd (congrArg (fun p => p.1) h) (by simp)
  next rt heq =>
    split at h
    next e heq2 => exact absurd (congrArg (fun p => p.1) h) (by simp)
    next tok heq2 =>
      rintro (hnone | ⟨rt', e', hrt', hre'⟩)
      · rw [heq] at hnone
        exact Option.noConfusion hnone
      · rw [heq] at hrt'
        obtain rfl : rt = rt' := by injection hrt'
        rw [heq2] at hre'
        exact Except.noConfusion hre'

/-- Helper: the access-token step fails with the not-authenticated error
exactly when the cached access token is invalid and no refresh token is
available or the refresh exchange fails. -/
theorem ensureFromAccess_notAuth_iff (w : World) (c : CachedTokens) :
    (ensureFromAccess w c).1 = .error notAuthenticatedMsg ↔
      GetAccessToken w.now c = none ∧
        (GetRefreshToken c = none ∨
          ∃ rt e, GetRefreshToken c = some rt ∧ w.refreshResult rt = .error e) := by
  constructor
  · intro h
    unfold ensureFromAccess at h
    split at h
    next a heqA => exact absurd h (ensureChain_fst_ne_notAuth w c a [])
    next heqA =>
      split at h
      next msg c1 tr heqR =>
        exact ⟨heqA, refreshAccessToken_error_cond w c msg c1 tr heqR⟩
      next x c1 tr heqR =>
        split at h
        next heqA2 =>
          simp only at h
          exact absurd (by injection h) failedObtain_ne_notAuth
        next a heqA2 => exact absurd h (ensureChain_fst_ne_notAuth w c1 a tr)
  · rintro ⟨hA, hcond⟩
    unfold ensureFromAccess
    rw [hA]
    rcases hr : refreshAccessToken w c with ⟨res, c1, tr⟩
    cases res with
    | error msg => simp
    | ok x => exact absurd hcond (refreshAccessToken_ok_cond w c x c1 tr hr)

/-- C1: the resolver's ordered, short-circuiting fallback. A valid cached
XSTS token is returned unchanged with no network call; else a valid cached
user token is exchanged for an XSTS token, persisted and returned, with a
failed exchange falling through to the access-token step; with no valid
user token the access-token step runs directly; a valid (possibly just
refreshed) access token is exchanged to a user token and then an XSTS
token, each persisted, returning the XSTS token and user hash; and the
distinct not-authenticated error occurs exactly when no valid XSTS or
usable user token exists, the access token is invalid, and no refresh
token is available or the refresh exchange fails. -/
theorem ensureXSTSToken_fallback (w : World) (c : CachedTokens) :
    (∀ th, GetXSTSToken w.now c = some th → ensureXSTSToken w c = (.ok th, c, []))
    ∧ (GetXSTSToken w.now c = none → ∀ ut, GetUserToken w.now c = some ut →
        (∀ xr, w.xstsResult ut = .ok xr →
          ensureXSTSToken w c =
            (.ok (xr.token, extractUserHash xr.displayClaims),
              SetXSTSToken c xr.token (extractUserHash xr.displayClaims) xr.notAfter,
              [.xstsExchange]))
        ∧ (∀ e, w.xstsResult ut = .error e →
            ensureXSTSToken w c =
              ((ensureFromAccess w c).1, (ensureFromAccess w c).2.1,
                .xstsExchange :: (ensureFromAccess w c).2.2)))
    ∧ (GetXSTSToken w.now c = none → GetUserToken w.now c = none →
        ensureXSTSToken w c = ensureFromAccess w c)
    ∧ (∀ a ur xr, GetAccessToken w.now c = some a →
        w.userTokenResult a = .ok ur → w.xstsResult ur.token = .ok xr →
        ensureFromAccess w c =
          (.ok (xr.token, extractUserHash xr.displayClaims),
            SetXSTSToken (SetUserToken c ur.token ur.notAfter) xr.token
              (extractUserHash xr.displayClaims) xr.notAfter,
            [.userExchange, .xstsExchange]))
    ∧ ((ensureXSTSToken w c).1 = .error notAuthenticatedMsg ↔
        (GetXSTSToken w.now c = none
          ∧ (∀ ut, GetUserToken w.now c = some ut → ∃ e, w.xstsResult ut = .error e)
          ∧ GetAccessToken w.now c = none
          ∧ (GetRefreshToken c = none ∨
              ∃ rt e, GetRefreshToken c = some rt ∧ w.refreshResult rt = .error e))) := by
  refine ⟨?_, ?_, ?_, ?_, ?_⟩
  · intro th h
    simp [ensureXSTSToken, h]
  · intro hX ut hU
    constructor
    · intro xr hok
      simp [ensureXSTSToken, hX, hU, hok]
    · intro e herr
      simp [ensureXSTSToken, hX, hU, herr]
  · intro hX hU
    simp [ensureXSTSToken, hX, hU]
  · intro a ur xr hA hur hxr
    simp [ensureFromAccess, ensureChain, hA, hur, hxr]
  · cases hX : GetXSTSToken w.now c with
    | some th =>
      rw [show (ensureXSTSToken w c).1 = .ok th by simp [ensureXSTSToken, hX]]
      refine iff_of_false (by simp) ?_
      rintro ⟨hfalse, -, -, -⟩
      exact Option.noConfusion hfalse
    | none =>
      cases hU : GetUserToken w.now c with
      | none =>
        rw [show (ensureXSTSToken w c).1 = (ensureFromAccess w c).1 by
          simp [ensureXSTSToken, hX, hU]]
        rw [ensureFromAccess_notAuth_iff]
        constructor
        · rintro ⟨h1, h2⟩
          refine ⟨rfl, ?_, h1, h2⟩
          intro ut' hut'
          exact Option.noConfusion hut'
        · rintro ⟨-, -, h1, h2⟩
          exact ⟨h1, h2⟩
      | some ut =>
        cases hxs : w.xstsResult ut with
        | ok xr =>
          rw [show (ensureXSTSToken w c).1 =
              .ok (xr.token, extractUserHash xr.displayClaims) by
            simp [ensureXSTSToken, hX, hU, hxs]]
          refine iff_of_false (by simp) ?_
          rintro ⟨-, hclause, -, -⟩
          obtain ⟨e, he⟩ := hclause ut rfl
          rw [hxs] at he
          exact Except.noConfusion he
        | error e =>
          rw [show (ensureXSTSToken w c).1 = (ensureFromAccess w c).1 by
            simp [ensureXSTSToken, hX, hU, hxs]]
          rw [ensureFromAccess_notAuth_iff]
          constructor
          · rintro ⟨h1, h2⟩
            refine ⟨rfl, ?_, h1, h2⟩
            intro ut' hut'
            obtain rfl : ut = ut' := by injection hut'
            exact ⟨e, hxs⟩
          · rintro ⟨-, -, h1, h2⟩
            exact ⟨h1, h2⟩

/-- C1 witness: a warm cache returns the stored XSTS token and user hash
with no network calls and no cache mutation. -/
theorem ensureXSTSToken_fallback_witness :
    ensureXSTSToken
      ⟨100, fun _ => .error "x", fun _ => .error "x", fun _ => .error "x"⟩
      (⟨"", "", 0, "", 0, "XT", 200, "UH"⟩ : CachedTokens) =
      (.ok ("XT", "UH"), (⟨"", "", 0, "", 0, "XT", 200, "UH"⟩ : CachedTokens), []) := by
  exact (ensureXSTSToken_fallback
    ⟨100, fun _ => .error "x", fun _ => .error "x", fun _ => .error "x"⟩
    (⟨"", "", 0, "", 0, "XT", 200, "UH"⟩ : CachedTokens)).1 ("XT", "UH") (by decide)

/-- C2 counterexample: with no valid XSTS token and only a valid user token
cached, a successful user-to-XSTS exchange completes the resolver with
exactly ONE network call, not the two the claim requires. -/
theorem ensureXSTSToken_call_count_counterexample :
    GetXSTSToken 100 (⟨"", "", 0, "UT", 300, "", 0, ""⟩ : CachedTokens) = none
    ∧ GetUserToken 100 (⟨"", "", 0, "UT", 300, "", 0, ""⟩ : CachedTokens) = some "UT"
    ∧ (ensureXSTSToken
        ⟨100, fun _ => .error "boom", fun _ => .error "boom",
          fun _ => .ok ⟨500, "XT1", [⟨some "UH1"⟩]⟩⟩
        (⟨"", "", 0, "UT", 300, "", 0, ""⟩ : CachedTokens)).2.2 = [NetCall.xstsExchange]
    ∧ [NetCall.xstsExchange].length ≠ 2 := by
  decide

/-- Helper: after a successful refresh the re-read access token is the one
the refresh response carried, whether or not a rotated refresh token was
also persisted. -/
theorem getAccessToken_after_refresh_set (now : Int) (c : CachedTokens) (tok : TokenResponse)
    (hat : tok.accessToken ≠ "") (hexp : 0 ≤ tok.expiresIn) :
    GetAccessToken now
      (if tok.refreshToken = ""
        then SetAccessToken c tok.accessToken (now + tok.expiresIn)
        else SetRefreshToken (SetAccessToken c tok.accessToken (now + tok.expiresIn))
          tok.refreshToken) = some tok.accessToken := by
  by_cases hrot : tok.refreshToken = "" <;>
    simp [hrot, GetAccessToken, SetAccessToken, SetRefreshToken, hat] <;> omega

/-- C2 (amended): the resolver issues zero network calls when a valid XSTS
token is cached; exactly one call when only a valid user token is cached
and its exchange succeeds; exactly two calls (user-token exchange then
XSTS exchange) when only a valid access token is cached; and exactly three
calls (refresh, user-token exchange, XSTS exchange) when starting cold
with only a refresh token. -/
theorem ensureXSTSToken_call_counts (w : World) (c : CachedTokens) :
    ((GetXSTSToken w.now c).isSome → (ensureXSTSToken w c).2.2.length = 0)
    ∧ (GetXSTSToken w.now c = none → ∀ ut xr, GetUserToken w.now c = some ut →
        w.xstsResult ut = .ok xr → (ensureXSTSToken w c).2.2.length = 1)
    ∧ (GetXSTSToken w.now c = none → GetUserToken w.now c = none →
        ∀ a ur xr, GetAccessToken w.now c = some a → w.userTokenResult a = .ok ur →
        w.xstsResult ur.token = .ok xr → (ensureXSTSToken w c).2.2.length = 2)
    ∧ (GetXSTSToken w.now c = none → GetUserToken w.now c = none →
        GetAccessToken w.now c = none →
        ∀ rt tok ur xr, GetRefreshToken c = some rt → w.refreshResult rt = .ok tok →
        tok.accessToken ≠ "" → 0 ≤ tok.expiresIn →
        w.userTokenResult tok.accessToken = .ok ur → w.xstsResult ur.token = .ok xr →
        (ensureXSTSToken w c).2.2 = [.refresh, .userExchange, .xstsExchange]) := by
  refine ⟨?_, ?_, ?_, ?_⟩
  · intro h
    obtain ⟨th, hth⟩ := Option.isSome_iff_exists.mp h
    simp [ensureXSTSToken, hth]
  · intro hX ut xr hU hok
    simp [ensureXSTSToken, hX, hU, hok]
  · intro hX hU a ur xr hA hur hxr
    simp [ensureXSTSToken, hX, hU, ensureFromAccess, ensureChain, hA, hur, hxr]
  · intro hX hU hA rt tok ur xr hR hres hat hexp hur hxr
    have hget := getAccessToken_after_refresh_set w.now c tok hat hexp
    simp [ensureXSTSToken, hX, hU, ensureFromAccess, refreshAccessToken, hA, hR, hres,
      hget, ensureChain, hur, hxr]

/-- C2 witness: a cold cache holding only a refresh token resolves with the
three-call chain refresh, user-token exchange, XSTS exchange. -/
theorem ensureXSTSToken_call_counts_witness :
    (ensureXSTSToken
      ⟨100, fun _ => .ok ⟨3600, "AT1", ""⟩, fun _ => .ok ⟨400, "UT1"⟩,
        fun _ => .ok ⟨500, "XT1", [⟨some "UH1"⟩]⟩⟩
      (⟨"", "RT", 0, "", 0, "", 0, ""⟩ : CachedTokens)).2.2 =
      [NetCall.refresh, NetCall.userExchange, NetCall.xstsExchange] := by
  exact (ensureXSTSToken_call_counts
    ⟨100, fun _ => .ok ⟨3600, "AT1", ""⟩, fun _ => .ok ⟨400, "UT1"⟩,
      fun _ => .ok ⟨500, "XT1", [⟨some "UH1"⟩]⟩⟩
    (⟨"", "RT", 0, "", 0, "", 0, ""⟩ : CachedTokens)).2.2.2 rfl rfl rfl
    "RT" ⟨3600, "AT1", ""⟩ ⟨400, "UT1"⟩ ⟨500, "XT1", [⟨some "UH1"⟩]⟩
    rfl rfl (by decide) (by decide) rfl rfl

/-- Helper: one-step unfolding of the polling loop body. -/
theorem pollGo_unfold (interval deadline : Nat) (hpos : 0 < interval)
    (provider : Nat → TickResult) (t : Nat) :
    pollGo interval deadline hpos provider t =
      if deadline < t + interval then (.expired (t + interval), [])
      else
        match provider (t + interval) with
        | .ok tok => (.success tok (t + interval), [t + interval])
        | .err e =>
          if isPendingErr e then
            ((pollGo interval deadline hpos provider (t + interval)).1,
              (t + interval) :: (pollGo interval deadline hpos provider (t + interval)).2)
          else (.failed e (t + interval), [t + interval]) := by
  rw [pollGo.eq_def]
  rfl

/-- Helper: under an always-pending provider, polling from any tick at or
before the deadline ends expired at the first tick strictly past the
deadline, and every attempt is issued at or before the deadline. -/
theorem pollGo_pending_expires (interval deadline : Nat) (hpos : 0 < interval)
    (provider : Nat → TickResult)
    (hp : ∀ n, ∃ e, provider n = .err e ∧ isPendingErr e = true) :
    ∀ m t, t ≤ deadline → deadline + 1 - t ≤ m →
      ∃ tE attempts,
        pollGo interval deadline hpos provider t = (.expired tE, attempts)
        ∧ deadline < tE ∧ tE ≤ deadline + interval
        ∧ ∀ a ∈ attempts, a ≤ deadline := by
  intro m
  induction m with
  | zero =>
    intro t ht hm
    exact absurd hm (by omega)
  | succ m ih =>
    intro t ht hm
    by_cases h : deadline < t + interval
    · refine ⟨t + interval, [], ?_, h, by omega, by simp⟩
      rw [pollGo_unfold]
      simp [h]
    · obtain ⟨e, he, hpend⟩ := hp (t + interval)
      obtain ⟨tE, attempts, hrec, h1, h2, h3⟩ := ih (t + interval) (by omega) (by omega)
      refine ⟨tE, (t + interval) :: attempts, ?_, h1, h2, ?_⟩
      · rw [pollGo_unfold]
        simp [h, he, hpend, hrec]
      · intro a ha
        rcases List.mem_cons.mp ha with rfl | ha
        · omega
        · exact h3 a ha

/-- C4: with a provider that always answers pending, the polling loop ends
in the expired outcome at the first tick strictly after the declared
validity window (not before the window elapses and at most one interval
after it), and every token-exchange attempt was issued at a tick at or
before the window boundary, i.e. the deadline check precedes each
attempt. -/
theorem pollForToken_always_pending_expires (interval expiresIn : Nat)
    (hpos : 0 < interval) (provider : Nat → TickResult)
    (hp : ∀ n, ∃ e, provider n = .err e ∧ isPendingErr e = true) :
    ∃ tE attempts,
      pollForToken interval expiresIn hpos provider = (.expired tE, attempts)
      ∧ expiresIn < tE ∧ tE ≤ expiresIn + interval
      ∧ ∀ a ∈ attempts, a ≤ expiresIn := by
  exact pollGo_pending_expires interval expiresIn hpos provider hp
    (expiresIn + 1) 0 (Nat.zero_le _) (by omega)

/-- C4 witness: interval 5, window 12, always-pending provider. -/
theorem pollForToken_always_pending_expires_witness :
    ∃ tE attempts,
      pollForToken 5 12 (by decide) (fun _ => .err "authorization_pending") =
        (.expired tE, attempts)
      ∧ 12 < tE ∧ tE ≤ 12 + 5 ∧ ∀ a ∈ attempts, a ≤ 12 := by
  exact pollForToken_always_pending_expires 5 12 (by decide)
    (fun _ => .err "authorization_pending")
    (fun _ => ⟨"authorization_pending", rfl, by decide⟩)

/-- Helper: a failure outcome of the polling loop never carries a pending
error; pending responses are consumed internally. -/
theorem pollGo_failed_not_pending (interval deadline : Nat) (hpos : 0 < interval)
    (provider : Nat → TickResult) :
    ∀ m t, deadline + 1 - t ≤ m → ∀ e tf,
      (pollGo interval deadline hpos provider t).1 = .failed e tf →
        isPendingErr e = false := by
  intro m
  induction m with
  | zero =>
    intro t hm e tf hfail
    have h : deadline < t + interval := by omega
    rw [pollGo_unfold] at hfail
    simp [h] at hfail
  | succ m ih =>
    intro t hm e tf hfail
    by_cases h : deadline < t + interval
    · rw [pollGo_unfold] at hfail
      simp [h] at hfail
    · rw [pollGo_unfold] at hfail
      rw [if_neg h] at hfail
      cases hpr : provider (t + interval) with
      | ok tok =>
        rw [hpr] at hfail
        simp at hfail
      | err e' =>
        rw [hpr] at hfail
        by_cases hpend : isPendingErr e' = true
        · simp only [hpend, if_true] at hfail
          exact ih (t + interval) (by omega) e tf hfail
        · simp only [hpend, if_false, Bool.false_eq_true] at hfail
          simp only [PollOutcome.failed.injEq] at hfail
          obtain ⟨rfl, -⟩ := hfail
          exact Bool.not_eq_true _ ▸ hpend

/-- C5: on a tick within the validity window, a successful token response
ends polling with success; a provider error carrying the distinguished
pending signal keeps the loop polling (the pending error is only consumed,
and indeed no failure outcome ever carries a pending error, so it is never
surfaced); and any other provider error ends polling with that error
surfaced verbatim. -/
theorem pollForToken_tick_transitions (interval deadline : Nat) (hpos : 0 < interval)
    (provider : Nat → TickResult) (t : Nat) :
    (∀ tok, ¬ deadline < t + interval → provider (t + interval) = .ok tok →
      pollGo interval deadline hpos provider t = (.success tok (t + interval), [t + interval]))
    ∧ (∀ e, ¬ deadline < t + interval → provider (t + interval) = .err e →
        isPendingErr e = true →
        pollGo interval deadline hpos provider t =
          ((pollGo interval deadline hpos provider (t + interval)).1,
            (t + interval) :: (pollGo interval deadline hpos provider (t + interval)).2))
    ∧ (∀ e, ¬ deadline < t + interval → provider (t + interval) = .err e →
        isPendingErr e = false →
        pollGo interval deadline hpos provider t = (.failed e (t + interval), [t + interval]))
    ∧ (∀ e tf, (pollGo interval deadline hpos provider t).1 = .failed e tf →
        isPendingErr e = false) := by
  refine ⟨?_, ?_, ?_, ?_⟩
  · intro tok h hpr
    rw [pollGo_unfold]
    simp [h, hpr]
  · intro e h hpr hpend
    rw [pollGo_unfold]
    simp [h, hpr, hpend]
  · intro e h hpr hpend
    rw [pollGo_unfold]
    simp [h, hpr, hpend]
  · exact pollGo_failed_not_pending interval deadline hpos provider
      (deadline + 1 - t) t (by omega)

/-- C5 witness: within the window, a non-pending provider error at the
first tick ends polling immediately with that error verbatim. -/
theorem pollForToken_tick_transitions_witness :
    pollGo 5 900 (by decide) (fun _ => .err "access_denied: declined") 0 =
      (.failed "access_denied: declined" 5, [5]) := by
  exact (pollForToken_tick_transitions 5 900 (by decide)
    (fun _ => .err "access_denied: declined") 0).2.2.1
    "access_denied: declined" (by decide) rfl (by decide)

/-- C6 counterexample: a flow started at instant 0 whose provider answers
with a token (lifetime 3600) at the first tick (interval 5) stores the
access token with expiry 3605 = success instant + lifetime, not
0 + 3600 = start time + lifetime as the claim requires. -/
theorem authenticate_expiry_counterexample :
    authenticateDeviceCode ⟨"ABC-123", "xyz", "u", 900, 5⟩ (by decide)
      (fun _ => .ok ⟨3600, "AT1", "RT1"⟩) CachedTokens.empty =
      .ok (⟨"AT1", "RT1", 3605, "", 0, "", 0, ""⟩ : CachedTokens)
    ∧ ((3605 : Int) ≠ 0 + 3600) := by
  have h : ∀ hp : 0 < (5 : Nat), pollForToken 5 900 hp (fun _ => .ok ⟨3600, "AT1", "RT1"⟩) =
      (.success ⟨3600, "AT1", "RT1"⟩ 5, [5]) := by
    intro hp
    rw [pollForToken, pollGo_unfold]
    simp
  refine ⟨?_, by decide⟩
  simp +decide [authenticateDeviceCode, h, SetAccessToken, SetRefreshToken,
    CachedTokens.empty]

/-- C6 (amended): when the device-authorization flow succeeds with token
response `tok` at tick instant `ts`, and the response carries a non-empty
access token, a non-negative lifetime and a non-empty refresh token, the
store afterwards holds that access token, valid at `ts`, with expiry equal
to the instant of the successful token response plus the declared lifetime
(not the flow start plus the lifetime), holds the response's refresh token,
and the user-token and XSTS fields are left completely unchanged. -/
theorem authenticate_success_postcondition (dc : DeviceCodeResponse)
    (hpos : 0 < dc.interval) (provider : Nat → TickResult) (c : CachedTokens)
    (tok : TokenResponse) (ts : Nat) (attempts : List Nat)
    (hpoll : pollForToken dc.interval dc.expiresIn hpos provider = (.success tok ts, attempts))
    (hat : tok.accessToken ≠ "") (hexp : 0 ≤ tok.expiresIn) (hrt : tok.refreshToken ≠ "") :
    authenticateDeviceCode dc hpos provider c =
      .ok (SetRefreshToken (SetAccessToken c tok.accessToken ((ts : Int) + tok.expiresIn))
        tok.refreshToken)
    ∧ ∀ c2, authenticateDeviceCode dc hpos provider c = .ok c2 →
        c2.accessToken = tok.accessToken
        ∧ c2.accessTokenExpiry = (ts : Int) + tok.expiresIn
        ∧ GetAccessToken (ts : Int) c2 = some tok.accessToken
        ∧ c2.refreshToken = tok.refreshToken ∧ c2.refreshToken ≠ ""
        ∧ c2.userToken = c.userToken ∧ c2.userTokenExpiry = c.userTokenExpiry
        ∧ c2.xstsToken = c.xstsToken ∧ c2.xstsTokenExpiry = c.xstsTokenExpiry
        ∧ c2.userHash = c.userHash := by
  have h1 : authenticateDeviceCode dc hpos provider c =
      .ok (SetRefreshToken (SetAccessToken c tok.accessToken ((ts : Int) + tok.expiresIn))
        tok.refreshToken) := by
    unfold authenticateDeviceCode
    rw [hpoll]
  refine ⟨h1, ?_⟩
  intro c2 hc2
  rw [h1] at hc2
  obtain rfl : SetRefreshToken (SetAccessToken c tok.accessToken ((ts : Int) + tok.expiresIn))
      tok.refreshToken = c2 := by injection hc2
  refine ⟨rfl, rfl, ?_, rfl, hrt, rfl, rfl, rfl, rfl, rfl⟩
  simp only [GetAccessToken, SetAccessToken, SetRefreshToken]
  rw [if_neg hat, if_neg (by omega)]

/-- C6 witness: concrete flow succeeding at the first tick. -/
theorem authenticate_success_postcondition_witness :
    authenticateDeviceCode ⟨"ABC-123", "xyz", "u", 900, 5⟩ (by decide)
      (fun _ => .ok ⟨3600, "AT1", "RT1"⟩) CachedTokens.empty =
      .ok (SetRefreshToken
        (SetAccessToken CachedTokens.empty "AT1" (((5 : Nat) : Int) + 3600)) "RT1") := by
  exact (authenticate_success_postcondition ⟨"ABC-123", "xyz", "u", 900, 5⟩ (by decide)
    (fun _ => .ok ⟨3600, "AT1", "RT1"⟩) CachedTokens.empty ⟨3600, "AT1", "RT1"⟩ 5 [5]
    (by rw [pollForToken, pollGo_unfold]; simp)
    (by decide) (by decide) (by decide)).1

end Xblive
